import Mathlib

/-!
Verification development for the real-estate news feed scripts
(src/scrape_news.py and src/fetch_news.py).

Strings are modelled as `List Char`.  Python `datetime` values are modelled
at whole-second resolution by `PyDatetime`: `wall` is the naive wall-clock
reading in seconds (Python's `toordinal() * 86400` plus the seconds within
the day), and `offset` is the UTC offset in seconds (`none` for a naive
datetime).  Network fetching, BeautifulSoup node selection and file I/O are
external collaborators; a scraped article element is modelled by the record
`RawEntry` holding exactly the five pieces of data `parse_news` reads from
it.
-/

/-- Abbreviation turning a string literal into the `List Char` we compute with. -/
def chars (s : String) : List Char := s.toList

/-- Model of a Python `datetime` value at second resolution.  `wall` is the
naive wall-clock reading in seconds since the proleptic-Gregorian epoch
(day ordinal times 86400 plus seconds within the day); `offset` is the UTC
offset in seconds, `none` when the datetime is naive (no tzinfo). -/
structure PyDatetime where
  wall : Int
  offset : Option Int
deriving DecidableEq

/-- The instant a datetime denotes, in UTC seconds.  Python compares two
timezone-aware datetimes exactly by this value; for naive datetimes the
`getD 0` default makes it the wall-clock reading. -/
def instant (d : PyDatetime) : Int := d.wall - d.offset.getD 0

/-- Model of Python `datetime - timedelta(seconds=s)`: subtraction acts on
the wall-clock field and keeps the tzinfo. -/
def pySubSeconds (d : PyDatetime) (s : Int) : PyDatetime := ⟨d.wall - s, d.offset⟩

/-- ASCII case folding of one character, modelling what `str.lower` does on
the ASCII range (all text the script handles here is ASCII). -/
def pyToLower (c : Char) : Char :=
  if 'A' ≤ c ∧ c ≤ 'Z' then Char.ofNat (c.toNat + 32) else c

/-- Model of Python `str.lower()` (ASCII range). -/
def pyLower (cs : List Char) : List Char := cs.map pyToLower

/-- Decimal digit test, modelling the regex class `\d` (ASCII range). -/
def pyIsDigit (c : Char) : Bool := decide ('0' ≤ c) && decide (c ≤ '9')

/-- Whitespace test, modelling the regex class `\s` (ASCII range). -/
def pyIsSpace (c : Char) : Bool :=
  c == ' ' || c == '\t' || c == '\n' || c == '\r' || c == '\x0b' || c == '\x0c'

/-- Numeric value of a decimal digit string, modelling Python `int(...)`
applied to the digit-only group captured by the regex below. -/
def digitsToNat (ds : List Char) : Nat :=
  ds.foldl (fun a c => 10 * a + (c.toNat - 48)) 0

/-- Model of Python `needle in hay` on strings: substring containment. -/
def pyIn (needle : List Char) : List Char → Bool
  | [] => needle.isEmpty
  | c :: t => needle.isPrefixOf (c :: t) || pyIn needle t

/-- One anchored attempt of the regex `(\d+)\s+<unit>` at the start of `cs`:
a maximal nonempty digit run, then a maximal nonempty whitespace run, then
the literal `unit`.  Returns the captured digit group.  Because digits,
whitespace and the unit's first letter are pairwise disjoint character
classes, the greedy runs coincide with the backtracking regex semantics. -/
def matchUnitAt (unit cs : List Char) : Option (List Char) :=
  let ds := cs.takeWhile pyIsDigit
  let r1 := cs.dropWhile pyIsDigit
  if ds.isEmpty then none
  else
    let ws := r1.takeWhile pyIsSpace
    let r2 := r1.dropWhile pyIsSpace
    if ws.isEmpty then none
    else if unit.isPrefixOf r2 then some ds else none

/-- Model of `re.search(r'(\d+)\s+<unit>', s)`: try each start position from
the left, returning the digit group of the first (leftmost) match. -/
def searchUnit (unit : List Char) : List Char → Option (List Char)
  | [] => none
  | c :: cs =>
    match matchUnitAt unit (c :: cs) with
    | some ds => some ds
    | none => searchUnit unit cs

/-- Model of `parse_relative_date` (src/scrape_news.py lines 33-52).  `now`
is the timezone-aware reference captured by `datetime.datetime.now(tz)` at
the start of the call.  The branch structure follows the source: the
`yesterday` / `hour` / `minute` / `day` substring tests in that order; when
a unit's regex search fails the `AttributeError` is caught by the handler
around the whole chain, so control falls directly to the final
`return now`. -/
def parse_relative_date (now : PyDatetime) (date_str : List Char) : PyDatetime :=
  let s := pyLower date_str
  if pyIn (chars ("yesterday")) s then pySubSeconds now 86400
  else if pyIn (chars ("hour")) s then
    match searchUnit (chars ("hour")) s with
    | some ds => pySubSeconds now (3600 * (digitsToNat ds : Int))
    | none => now
  else if pyIn (chars ("minute")) s then
    match searchUnit (chars ("minute")) s with
    | some ds => pySubSeconds now (60 * (digitsToNat ds : Int))
    | none => now
  else if pyIn (chars ("day")) s then
    match searchUnit (chars ("day")) s with
    | some ds => pySubSeconds now (86400 * (digitsToNat ds : Int))
    | none => now
  else now

/-- Gregorian leap-year test (as in Python's datetime module). -/
def isLeapYear (y : Nat) : Bool := y % 4 == 0 && (y % 100 != 0 || y % 400 == 0)

/-- Days in a month of a given year (as in Python's datetime module). -/
def daysInMonth (y m : Nat) : Nat :=
  if m == 2 then (if isLeapYear y then 29 else 28)
  else if m == 4 || m == 6 || m == 9 || m == 11 then 30
  else 31

/-- Days in the given year strictly before month `m` (month 1-12). -/
def daysBeforeMonth (y m : Nat) : Nat :=
  (match m with
   | 1 => 0 | 2 => 31 | 3 => 59 | 4 => 90 | 5 => 120 | 6 => 151
   | 7 => 181 | 8 => 212 | 9 => 243 | 10 => 273 | 11 => 304 | _ => 334)
  + (if 2 < m ∧ isLeapYear y then 1 else 0)

/-- Days before January 1 of year `y` in the proleptic Gregorian calendar
(Python's `datetime._days_before_year`). -/
def daysBeforeYear (y : Nat) : Nat :=
  365 * (y - 1) + (y - 1) / 4 - (y - 1) / 100 + (y - 1) / 400

/-- Proleptic Gregorian ordinal of a date (Python's `date.toordinal`):
0001-01-01 is day 1. -/
def toOrdinal (y m d : Nat) : Nat := daysBeforeYear y + daysBeforeMonth y m + d

/-- Parse a `±HH:MM` UTC offset (or nothing) after the time part, producing
the datetime with wall-clock seconds `t`.  Offsets with a seconds field and
fractional offsets are outside the modelled subset and rejected. -/
def parseOffsetPart (t : Int) : List Char → Option PyDatetime
  | [] => some ⟨t, none⟩
  | sgn :: o1 :: o2 :: ':' :: o3 :: o4 :: [] =>
    if (sgn == '+' || sgn == '-') && pyIsDigit o1 && pyIsDigit o2
        && pyIsDigit o3 && pyIsDigit o4 then
      let oh := 10 * (o1.toNat - 48) + (o2.toNat - 48)
      let om := 10 * (o3.toNat - 48) + (o4.toNat - 48)
      if oh ≤ 23 && om ≤ 59 then
        let off : Int := (oh * 3600 + om * 60 : Nat)
        some ⟨t, some (if sgn == '-' then -off else off)⟩
      else none
    else none
  | _ => none

/-- Parse an `HH:MM[:SS]` time, then an optional offset.  `base` is the
wall-clock seconds of the date's midnight. -/
def parseTimePart (base : Int) : List Char → Option PyDatetime
  | h1 :: h2 :: ':' :: mi1 :: mi2 :: rest =>
    if pyIsDigit h1 && pyIsDigit h2 && pyIsDigit mi1 && pyIsDigit mi2 then
      let h := 10 * (h1.toNat - 48) + (h2.toNat - 48)
      let mi := 10 * (mi1.toNat - 48) + (mi2.toNat - 48)
      if h ≤ 23 && mi ≤ 59 then
        match rest with
        | ':' :: s1 :: s2 :: rest2 =>
          if pyIsDigit s1 && pyIsDigit s2 then
            let sec := 10 * (s1.toNat - 48) + (s2.toNat - 48)
            if sec ≤ 59 then
              parseOffsetPart (base + (h * 3600 + mi * 60 + sec : Nat)) rest2
            else none
          else none
        | _ => parseOffsetPart (base + (h * 3600 + mi * 60 : Nat)) rest
      else none
    else none
  | _ => none

/-- Model of `datetime.datetime.fromisoformat` restricted to the grammar
`YYYY-MM-DD[<any separator char>HH:MM[:SS][±HH:MM]]` at whole-second
precision (fractional seconds, bare-hour times and seconds-bearing offsets
are treated as invalid; the script's inputs and all instances used in the
theorems below stay inside this subset).  Returns `none` where Python
raises `ValueError`. -/
def py_fromisoformat (cs : List Char) : Option PyDatetime :=
  match cs with
  | y1 :: y2 :: y3 :: y4 :: '-' :: m1 :: m2 :: '-' :: dd1 :: dd2 :: rest =>
    if pyIsDigit y1 && pyIsDigit y2 && pyIsDigit y3 && pyIsDigit y4
        && pyIsDigit m1 && pyIsDigit m2 && pyIsDigit dd1 && pyIsDigit dd2 then
      let y := 1000 * (y1.toNat - 48) + 100 * (y2.toNat - 48)
                 + 10 * (y3.toNat - 48) + (y4.toNat - 48)
      let m := 10 * (m1.toNat - 48) + (m2.toNat - 48)
      let d := 10 * (dd1.toNat - 48) + (dd2.toNat - 48)
      if 1 ≤ y && 1 ≤ m && m ≤ 12 && 1 ≤ d && d ≤ daysInMonth y m then
        let base : Int := (toOrdinal y m d : Nat) * 86400
        match rest with
        | [] => some ⟨base, none⟩
        | _sep :: t => parseTimePart base t
      else none
    else none
  | _ => none

/-- Model of `datetime_attr.replace('Z', '+00:00')` from
src/scrape_news.py line 100 (single-character needle, replace all). -/
def replaceZ (cs : List Char) : List Char :=
  cs.flatMap (fun c => if c == 'Z' then chars ("+00:00") else [c])

/-- The five pieces of data `parse_news` reads from one scraped `article`
element (src/scrape_news.py lines 83-93).  `none` models the corresponding
element/attribute being absent (`select_one` returning `None`, or the link
element lacking an `href`); the `dtText` and `dtAttr` fields both come from
the single `time` element when it exists. -/
structure RawEntry where
  titleText : Option (List Char)
  linkHref : Option (List Char)
  sourceText : Option (List Char)
  dtText : Option (List Char)
  dtAttr : Option (List Char)
deriving DecidableEq

/-- Python truthiness of an optional string (`None` and the empty string
are falsy). -/
def truthy : Option (List Char) → Bool
  | none => false
  | some s => !s.isEmpty

/-- The configured aggregator base URL (src/scrape_news.py line 16). -/
def BASE_URL : List Char := chars ("https://news.google.com/")

/-- The template placeholder token (src/scrape_news.py line 21). -/
def NEWS_PLACEHOLDER : List Char := chars ("<!-- NEWS_CONTENT_PLACEHOLDER -->")

/-- Character allowed in a URL scheme after the leading letter. -/
def isSchemeChar (c : Char) : Bool :=
  c.isAlpha || pyIsDigit c || c == '+' || c == '-' || c == '.'

/-- Scan for the `:` ending a URL scheme. -/
def schemeMark : List Char → Bool
  | [] => false
  | c :: cs => if c == ':' then true else if isSchemeChar c then schemeMark cs else false

/-- Does the URL start with a scheme (letter, scheme characters, `:`)? -/
def hasScheme : List Char → Bool
  | [] => false
  | c :: cs => c.isAlpha && schemeMark cs

/-- Model of `urllib.parse.urljoin(BASE_URL, url)` for the base
`https://news.google.com/`: an empty URL yields the base; a URL carrying a
scheme is returned as-is (it is assumed to also carry a network location,
as every such input in this development does); protocol-relative,
root-relative and relative references are resolved against the base, whose
path is just `/` (dot-segment normalisation, not exercised here, is not
modelled). -/
def pyUrljoin (url : List Char) : List Char :=
  if url.isEmpty then BASE_URL
  else if hasScheme url then url
  else if (chars ("//")).isPrefixOf url then chars ("https:") ++ url
  else if (chars ("/")).isPrefixOf url then chars ("https://news.google.com") ++ url
  else chars ("https://news.google.com/") ++ url

/-- Model of `get_absolute_url` (src/scrape_news.py lines 54-58): strip a
leading `./`, then join with the base URL. -/
def get_absolute_url (href : List Char) : List Char :=
  pyUrljoin (if (chars ("./")).isPrefixOf href then href.drop 2 else href)

/-- One parsed news item as built by `parse_news`
(src/scrape_news.py lines 115-121). -/
structure NewsItem where
  title : List Char
  link : List Char
  source : List Char
  date : PyDatetime
  date_str : List Char
deriving DecidableEq

/-- The date-resolution chain of `parse_news` (src/scrape_news.py lines
96-110) for one entry.  `nowTz` is `datetime.now(pytz.timezone(TIMEZONE))`
as captured inside `parse_relative_date`; `nowUtc` is
`datetime.now(pytz.utc)`, the final fallback.  A truthy `datetime`
attribute is tried first with `fromisoformat` (after the `Z` replacement);
on its `ValueError` the relative text is tried when truthy; with no truthy
attribute the relative text is tried directly; if nothing produced a date
the UTC current time is used.  The function is total: no branch raises. -/
def resolveDate (nowTz nowUtc : PyDatetime) (e : RawEntry) : PyDatetime :=
  if truthy e.dtAttr then
    match py_fromisoformat (replaceZ (e.dtAttr.getD [])) with
    | some d => d
    | none =>
      if truthy e.dtText then parse_relative_date nowTz (e.dtText.getD [])
      else nowUtc
  else if truthy e.dtText then parse_relative_date nowTz (e.dtText.getD [])
  else nowUtc

/-- Field extraction and filtering for one entry (src/scrape_news.py lines
89-121): placeholder values `N/A` and `#` for missing pieces, then the
filter `title != "N/A" and link != "#" and not link.startswith(BASE_URL)
and source != "Google News"`; the stored display string is
`date_str or datetime_attr or "N/A"` (Python `or`, first truthy wins). -/
def mkItem (nowTz nowUtc : PyDatetime) (e : RawEntry) : Option NewsItem :=
  let title := e.titleText.getD (chars ("N/A"))
  let link := match e.linkHref with
    | some h => get_absolute_url h
    | none => chars ("#")
  let source := e.sourceText.getD (chars ("N/A"))
  let date := resolveDate nowTz nowUtc e
  let ds :=
    if truthy e.dtText then e.dtText.getD []
    else if truthy e.dtAttr then e.dtAttr.getD []
    else chars ("N/A")
  if title ≠ chars ("N/A") ∧ link ≠ chars ("#")
      ∧ BASE_URL.isPrefixOf link = false ∧ source ≠ chars ("Google News")
  then some ⟨title, link, source, date, ds⟩ else none

/-- Insert one item into an already-sorted (descending by instant) list,
before the first item whose key is not strictly greater.  Folding this over
the input models `list.sort(key=lambda item: item['date'], reverse=True)`:
CPython's sort is stable and, with `reverse=True`, keeps equal-key elements
in discovery order, which is exactly the arrangement this insertion
produces (descending by key, ties by original position). -/
def insertDesc (x : NewsItem) : List NewsItem → List NewsItem
  | [] => [x]
  | y :: ys => if instant x.date < instant y.date then y :: insertDesc x ys else x :: y :: ys

/-- Stable descending sort by the date key (model of the `news_items.sort`
call at src/scrape_news.py line 124). -/
def sortNewsDesc : List NewsItem → List NewsItem
  | [] => []
  | x :: xs => insertDesc x (sortNewsDesc xs)

/-- Model of `parse_news` (src/scrape_news.py lines 72-127) applied to the
list of scraped article elements: build an item from each entry, keep those
passing the filter, then sort by date, newest first.  No deduplication step
exists in the source. -/
def parse_news (nowTz nowUtc : PyDatetime) (entries : List RawEntry) : List NewsItem :=
  sortNewsDesc (entries.filterMap (mkItem nowTz nowUtc))

/-- The Python exception relevant to the renderer model. -/
inductive PyErr where
  | attributeError
deriving DecidableEq

/-- The exact fragment returned for an empty item list
(src/scrape_news.py line 132). -/
def NO_NEWS_HTML : List Char :=
  chars ("<ul><li>No news found or error fetching data. Check Action logs for details.</li></ul>")

/-- Model of `generate_news_list_html` (src/scrape_news.py lines 129-167).
The empty-list branch returns the fixed fragment.  For a non-empty list the
loop body's first escaping call is `requests.utils.escape(item['title'])`
(line 146), but the `requests.utils` module exposes no `escape` function,
so the very first iteration raises `AttributeError` (the preceding
`display_date` computation is inside its own `try/except Exception` and
cannot raise); the error propagates out of the function. -/
def generate_news_list_html : List NewsItem → Except PyErr (List Char)
  | [] => Except.ok NO_NEWS_HTML
  | _ :: _ => Except.error PyErr.attributeError

/-- The warning banner `write_final_html` appends when the placeholder is
missing (src/scrape_news.py line 195). -/
def WARN_BANNER : List Char :=
  chars ("\n<hr><h2>Appended News (Placeholder Missing):</h2>\n")

/-- Replace every occurrence of the nonempty needle `n :: ns` by `repl`,
left to right without overlap, as Python `str.replace` does. -/
def replaceAllAux (n : Char) (ns repl : List Char) : List Char → List Char
  | [] => []
  | c :: cs =>
    if (n :: ns).isPrefixOf (c :: cs) then
      repl ++ replaceAllAux n ns repl (cs.drop ns.length)
    else c :: replaceAllAux n ns repl cs
termination_by l => l.length
decreasing_by
  · simp only [List.length_drop, List.length_cons]
    omega
  · simp

/-- Model of Python `hay.replace(needle, repl)` (the empty-needle case is
never used: the placeholder is nonempty). -/
def replaceAll (needle repl hay : List Char) : List Char :=
  match needle with
  | [] => hay
  | n :: ns => replaceAllAux n ns repl hay

/-- The pure core of `write_final_html` (src/scrape_news.py lines 192-197):
given the template text already read and the rendered fragment, produce the
final document text.  If the placeholder is absent the fragment is appended
after the template behind a visible warning banner; otherwise the
placeholder is replaced by the fragment. -/
def write_final_html_core (template_content news_list_html : List Char) : List Char :=
  if pyIn NEWS_PLACEHOLDER template_content = false then
    template_content ++ WARN_BANNER ++ news_list_html
  else replaceAll NEWS_PLACEHOLDER news_list_html template_content

/-- Concrete timezone-aware reference time used by witnesses and
counterexamples: a wall clock with the America/New_York standard offset. -/
def nowNY : PyDatetime := ⟨1700000000, some (-18000)⟩

/-- Concrete timezone-aware UTC reference time denoting the same instant as
`nowNY`, used as the final fallback in witnesses and counterexamples. -/
def nowUTC0 : PyDatetime := ⟨1700018000, some 0⟩

/-! Helper lemmas about the string and sorting models. -/

theorem pyIn_iff (n : List Char) : ∀ h : List Char, pyIn n h = true ↔ n <:+: h := by
  intro h
  induction h with
  | nil =>
    constructor
    · intro hp
      have hn : n = [] := by simpa [pyIn, List.isEmpty_iff] using hp
      simp [hn]
    · intro hi
      have hn : n = [] := by
        have hlen := hi.length_le
        simpa using hlen
      simp [pyIn, hn]
  | cons c t ih =>
    constructor
    · intro hp
      simp only [pyIn, Bool.or_eq_true] at hp
      rcases hp with h1 | h2
      · exact (List.isPrefixOf_iff_prefix.mp h1).isInfix
      · rcases ih.mp h2 with ⟨s, e, he⟩
        exact ⟨c :: s, e, by simp [he]⟩
    · rintro ⟨s, e, he⟩
      cases s with
      | nil =>
        have hpre : n.isPrefixOf (c :: t) = true := by
          refine List.isPrefixOf_iff_prefix.mpr ⟨e, ?_⟩
          simpa using he
        simp [pyIn, hpre]
      | cons a sr =>
        have he2 : sr ++ n ++ e = t := by
          have : a :: (sr ++ n ++ e) = c :: t := by simpa using he
          exact (List.cons.injEq _ _ _ _).mp this |>.2
        have : pyIn n t = true := ih.mpr ⟨sr, e, he2⟩
        simp [pyIn, this]

theorem pyToLower_digit {c : Char} (h : pyIsDigit c = true) : pyToLower c = c := by
  simp only [pyIsDigit, Bool.and_eq_true, decide_eq_true_eq] at h
  unfold pyToLower
  rw [if_neg]
  rintro ⟨hA, _⟩
  have h9 : ('A' : Char) ≤ '9' := le_trans hA h.2
  exact absurd h9 (by decide)

theorem takeWhile_append_all {p : Char → Bool} (l₁ l₂ : List Char)
    (h : ∀ a ∈ l₁, p a = true) :
    (l₁ ++ l₂).takeWhile p = l₁ ++ l₂.takeWhile p := by
  induction l₁ with
  | nil => simp
  | cons a l ih =>
    have ha : p a = true := h a (by simp)
    simp [List.takeWhile_cons, ha, ih (fun b hb => h b (by simp [hb]))]

theorem dropWhile_append_all {p : Char → Bool} (l₁ l₂ : List Char)
    (h : ∀ a ∈ l₁, p a = true) :
    (l₁ ++ l₂).dropWhile p = l₂.dropWhile p := by
  induction l₁ with
  | nil => simp
  | cons a l ih =>
    have ha : p a = true := h a (by simp)
    simp [List.dropWhile_cons, ha, ih (fun b hb => h b (by simp [hb]))]

theorem instant_pySubSeconds (d : PyDatetime) (s : Int) :
    instant (pySubSeconds d s) = instant d - s := by
  simp only [instant, pySubSeconds]
  omega

theorem pySubSeconds_zero (d : PyDatetime) : pySubSeconds d 0 = d := by
  show ({ wall := d.wall - 0, offset := d.offset } : PyDatetime) = d
  rw [sub_zero]

theorem parse_relative_date_cases (now : PyDatetime) (s : List Char) :
    ∃ k : Int, 0 ≤ k ∧ parse_relative_date now s = pySubSeconds now k := by
  simp only [parse_relative_date]
  split_ifs with h1 h2 h3 h4
  · exact ⟨86400, by norm_num, rfl⟩
  · cases hsu : searchUnit (chars ("hour")) (pyLower s) with
    | none => exact ⟨0, le_refl 0, by simp [hsu, pySubSeconds_zero]⟩
    | some ds => exact ⟨3600 * (digitsToNat ds : Int), by positivity, by simp [hsu]⟩
  · cases hsu : searchUnit (chars ("minute")) (pyLower s) with
    | none => exact ⟨0, le_refl 0, by simp [hsu, pySubSeconds_zero]⟩
    | some ds => exact ⟨60 * (digitsToNat ds : Int), by positivity, by simp [hsu]⟩
  · cases hsu : searchUnit (chars ("day")) (pyLower s) with
    | none => exact ⟨0, le_refl 0, by simp [hsu, pySubSeconds_zero]⟩
    | some ds => exact ⟨86400 * (digitsToNat ds : Int), by positivity, by simp [hsu]⟩
  · exact ⟨0, le_refl 0, (pySubSeconds_zero now).symm⟩

theorem parse_relative_date_offset (now : PyDatetime) (s : List Char) :
    (parse_relative_date now s).offset = now.offset := by
  obtain ⟨k, _, hk⟩ := parse_relative_date_cases now s
  rw [hk]
  rfl

theorem insertDesc_perm (x : NewsItem) :
    ∀ l : List NewsItem, (insertDesc x l).Perm (x :: l) := by
  intro l
  induction l with
  | nil => simp [insertDesc]
  | cons y ys ih =>
    simp only [insertDesc]
    by_cases hc : instant x.date < instant y.date
    · rw [if_pos hc]
      exact (ih.cons y).trans (List.Perm.swap x y ys)
    · rw [if_neg hc]

theorem sortNewsDesc_perm : ∀ l : List NewsItem, (sortNewsDesc l).Perm l := by
  intro l
  induction l with
  | nil => simp [sortNewsDesc]
  | cons x xs ih =>
    simp only [sortNewsDesc]
    exact (insertDesc_perm x (sortNewsDesc xs)).trans (ih.cons x)

theorem pairwise_insertDesc {x : NewsItem} :
    ∀ {l : List NewsItem},
      List.Pairwise (fun a b => instant b.date ≤ instant a.date) l →
      List.Pairwise (fun a b => instant b.date ≤ instant a.date) (insertDesc x l) := by
  intro l
  induction l with
  | nil =>
    intro _
    simp [insertDesc]
  | cons y ys ih =>
    intro hp
    rcases List.pairwise_cons.mp hp with ⟨hy, hys⟩
    simp only [insertDesc]
    by_cases hc : instant x.date < instant y.date
    · rw [if_pos hc]
      refine List.pairwise_cons.mpr ⟨?_, ih hys⟩
      intro z hz
      rcases List.mem_cons.mp ((insertDesc_perm x ys).mem_iff.mp hz) with rfl | hz2
      · exact le_of_lt hc
      · exact hy z hz2
    · rw [if_neg hc]
      refine List.pairwise_cons.mpr ⟨?_, hp⟩
      intro z hz
      rcases List.mem_cons.mp hz with rfl | hz2
      · exact not_lt.mp hc
      · exact le_trans (hy z hz2) (not_lt.mp hc)

theorem sortNewsDesc_sorted :
    ∀ l : List NewsItem,
      List.Pairwise (fun a b => instant b.date ≤ instant a.date) (sortNewsDesc l) := by
  intro l
  induction l with
  | nil => simp [sortNewsDesc]
  | cons x xs ih =>
    simp only [sortNewsDesc]
    exact pairwise_insertDesc ih

theorem filter_insertDesc_neg {x : NewsItem} {p : NewsItem → Bool} (hx : p x = false) :
    ∀ l : List NewsItem, (insertDesc x l).filter p = l.filter p := by
  intro l
  induction l with
  | nil => simp [insertDesc, hx]
  | cons y ys ih =>
    simp only [insertDesc]
    by_cases hc : instant x.date < instant y.date
    · rw [if_pos hc]
      simp [List.filter_cons, ih]
    · rw [if_neg hc]
      simp [List.filter_cons, hx]

theorem filter_insertDesc_pos {x : NewsItem} {k : Int} (hx : instant x.date = k) :
    ∀ l : List NewsItem,
      (insertDesc x l).filter (fun it => instant it.date == k) =
        x :: l.filter (fun it => instant it.date == k) := by
  intro l
  induction l with
  | nil => simp [insertDesc, hx]
  | cons y ys ih =>
    simp only [insertDesc]
    by_cases hc : instant x.date < instant y.date
    · rw [if_pos hc]
      have hpy : (instant y.date == k) = false := by
        simp only [beq_eq_false_iff_ne, ne_eq]
        omega
      simp [List.filter_cons, hpy, ih]
    · rw [if_neg hc]
      simp [List.filter_cons, hx]

theorem sortNewsDesc_stable (k : Int) :
    ∀ l : List NewsItem,
      (sortNewsDesc l).filter (fun it => instant it.date == k) =
        l.filter (fun it => instant it.date == k) := by
  intro l
  induction l with
  | nil => rfl
  | cons x xs ih =>
    simp only [sortNewsDesc]
    by_cases hx : instant x.date = k
    · rw [filter_insertDesc_pos hx, ih]
      simp [List.filter_cons, hx]
    · have hpx : (instant x.date == k) = false := by simp [hx]
      rw [filter_insertDesc_neg hpx, ih]
      simp [List.filter_cons, hpx]

theorem infix_replaceAllAux (n : Char) (ns repl : List Char) :
    ∀ m : Nat, ∀ hay : List Char, hay.length ≤ m → pyIn (n :: ns) hay = true →
      repl <:+: replaceAllAux n ns repl hay := by
  intro m
  induction m with
  | zero =>
    intro hay hlen hp
    cases hay with
    | nil => simp [pyIn] at hp
    | cons c cs => simp at hlen
  | succ m ih =>
    intro hay hlen hp
    cases hay with
    | nil => simp [pyIn] at hp
    | cons c cs =>
      by_cases hpre : (n :: ns).isPrefixOf (c :: cs) = true
      · have hrw : replaceAllAux n ns repl (c :: cs) =
            repl ++ replaceAllAux n ns repl (cs.drop ns.length) := by
          simp only [replaceAllAux]
          rw [if_pos hpre]
        rw [hrw]
        exact (List.prefix_append repl _).isInfix
      · have hrw : replaceAllAux n ns repl (c :: cs) = c :: replaceAllAux n ns repl cs := by
          simp only [replaceAllAux]
          rw [if_neg hpre]
        rw [hrw]
        have hp2 : pyIn (n :: ns) cs = true := by
          simp only [pyIn, Bool.or_eq_true] at hp
          rcases hp with h | h
          · exact absurd h hpre
          · exact h
        have hlen2 : cs.length ≤ m := by
          simp only [List.length_cons] at hlen
          omega
        rcases ih cs hlen2 hp2 with ⟨s, e, he⟩
        exact ⟨c :: s, e, by simp [he]⟩

theorem pyIn_replaceAll {needle repl hay : List Char} (hne : needle ≠ [])
    (h : pyIn needle hay = true) : pyIn repl (replaceAll needle repl hay) = true := by
  cases needle with
  | nil => exact absurd rfl hne
  | cons n ns =>
    exact (pyIn_iff repl _).mpr
      (infix_replaceAllAux n ns repl hay.length hay (le_refl _) h)

/-! Claim theorems. -/

/-- Claim C7 (code_bug evidence): the renderer does not escape anything —
for every non-empty article list, `generate_news_list_html` raises
`AttributeError` on the first item, because line 146 of src/scrape_news.py
calls `requests.utils.escape`, a function the `requests.utils` module does
not contain.  The spec's required behaviour (HTML-escape `title` and
`source` and return the fragment) never happens for a non-empty list. -/
theorem generate_news_list_html_nonempty_raises (it : NewsItem) (l : List NewsItem) :
    generate_news_list_html (it :: l) = Except.error PyErr.attributeError := rfl

/-- Claim C9: rendering an empty article list produces the fixed non-empty
fragment, which contains the recognizable indicator text "No news" —
distinguishable from an empty or absent list. -/
theorem generate_news_list_html_empty_no_news :
    generate_news_list_html [] = Except.ok NO_NEWS_HTML ∧
      NO_NEWS_HTML ≠ [] ∧ pyIn (chars ("No news")) NO_NEWS_HTML = true :=
  ⟨rfl, by decide, by decide⟩

/-- Claim C8: the publisher's policy when the template lacks the
placeholder marker is to append the rendered fragment after the original
template content behind the visible warning banner; and in every case
(placeholder present or absent) the output contains the news fragment, so
the news content is never silently dropped. -/
theorem write_final_html_missing_placeholder_policy (t f : List Char) :
    pyIn f (write_final_html_core t f) = true ∧
      (pyIn NEWS_PLACEHOLDER t = false →
        write_final_html_core t f = t ++ WARN_BANNER ++ f) := by
  constructor
  · by_cases h : pyIn NEWS_PLACEHOLDER t = false
    · rw [write_final_html_core, if_pos h]
      exact (pyIn_iff f _).mpr (List.suffix_append _ f).isInfix
    · rw [write_final_html_core, if_neg h]
      have ht : pyIn NEWS_PLACEHOLDER t = true := by
        cases hx : pyIn NEWS_PLACEHOLDER t with
        | false => exact absurd hx h
        | true => rfl
      exact pyIn_replaceAll (by decide) ht
  · intro h
    rw [write_final_html_core, if_pos h]

/-- Witness for C8 at a concrete placeholder-free template. -/
theorem write_final_html_missing_placeholder_policy_witness :
    pyIn NEWS_PLACEHOLDER (chars ("<html><body></body></html>")) = false ∧
      write_final_html_core (chars ("<html><body></body></html>"))
          (chars ("<ul><li>x</li></ul>")) =
        chars ("<html><body></body></html>") ++ WARN_BANNER ++ chars ("<ul><li>x</li></ul>") :=
  ⟨by decide,
    (write_final_html_missing_placeholder_policy
      (chars ("<html><body></body></html>")) (chars ("<ul><li>x</li></ul>"))).2 (by decide)⟩

/-- Claim C5: the sorter's output is non-increasing in the resolved
timestamp (most recent first) and, for every key value, the articles with
that resolved instant keep their original relative order (stable sort, no
secondary key).  The hypothesis that all dates are timezone-aware is the
condition under which the model's instant comparison coincides with
CPython's datetime comparison (a list mixing naive and aware datetimes
would instead make the sort raise TypeError). -/
theorem sortNewsDesc_desc_stable (items : List NewsItem) (k : Int)
    (_h : (items.all fun it => (it.date.offset).isSome) = true) :
    List.Pairwise (fun a b => instant b.date ≤ instant a.date) (sortNewsDesc items) ∧
      (sortNewsDesc items).filter (fun it => instant it.date == k) =
        items.filter (fun it => instant it.date == k) :=
  ⟨sortNewsDesc_sorted items, sortNewsDesc_stable k items⟩

/-- Witness for C5 on a concrete three-item list with a tie at instant 100. -/
theorem sortNewsDesc_desc_stable_witness :
    (([⟨chars ("A"), chars ("la"), chars ("s"), ⟨100, some 0⟩, chars ("x")⟩,
       ⟨chars ("C"), chars ("lc"), chars ("s"), ⟨160, some 60⟩, chars ("x")⟩,
       ⟨chars ("B"), chars ("lb"), chars ("s"), ⟨200, some 0⟩, chars ("x")⟩] :
        List NewsItem).all fun it => (it.date.offset).isSome) = true ∧
      List.Pairwise (fun a b => instant b.date ≤ instant a.date)
        (sortNewsDesc
          [⟨chars ("A"), chars ("la"), chars ("s"), ⟨100, some 0⟩, chars ("x")⟩,
           ⟨chars ("C"), chars ("lc"), chars ("s"), ⟨160, some 60⟩, chars ("x")⟩,
           ⟨chars ("B"), chars ("lb"), chars ("s"), ⟨200, some 0⟩, chars ("x")⟩]) ∧
      (sortNewsDesc
          [⟨chars ("A"), chars ("la"), chars ("s"), ⟨100, some 0⟩, chars ("x")⟩,
           ⟨chars ("C"), chars ("lc"), chars ("s"), ⟨160, some 60⟩, chars ("x")⟩,
           ⟨chars ("B"), chars ("lb"), chars ("s"), ⟨200, some 0⟩, chars ("x")⟩]).filter
          (fun it => instant it.date == 100) =
        ([⟨chars ("A"), chars ("la"), chars ("s"), ⟨100, some 0⟩, chars ("x")⟩,
          ⟨chars ("C"), chars ("lc"), chars ("s"), ⟨160, some 60⟩, chars ("x")⟩,
          ⟨chars ("B"), chars ("lb"), chars ("s"), ⟨200, some 0⟩, chars ("x")⟩] :
            List NewsItem).filter (fun it => instant it.date == 100) :=
  ⟨by decide,
    (sortNewsDesc_desc_stable _ 100 (by decide)).1,
    (sortNewsDesc_desc_stable _ 100 (by decide)).2⟩

/-- Claim C10: for every input string, `parse_relative_date` returns (the
model is total, as the source catches the only possible exceptions) a
datetime carrying the same tzinfo as the aware reference now captured at
the start of the call, and its instant is never later than that reference:
a resolved relative date can never lie in the future. -/
theorem parse_relative_date_never_future (now : PyDatetime) (s : List Char) (o : Int)
    (h : now.offset = some o) :
    (parse_relative_date now s).offset = some o ∧
      instant (parse_relative_date now s) ≤ instant now := by
  obtain ⟨k, hk0, hk⟩ := parse_relative_date_cases now s
  rw [hk]
  constructor
  · show now.offset = some o
    exact h
  · rw [instant_pySubSeconds]
    omega

/-- Witness for C10 on the future-sounding phrase "in 5 hours", which still
resolves to five hours in the past. -/
theorem parse_relative_date_never_future_witness :
    nowNY.offset = some (-18000) ∧
      (parse_relative_date nowNY (chars ("in 5 hours"))).offset = some (-18000) ∧
      instant (parse_relative_date nowNY (chars ("in 5 hours"))) ≤ instant nowNY :=
  ⟨rfl,
    (parse_relative_date_never_future nowNY (chars ("in 5 hours")) (-18000) rfl).1,
    (parse_relative_date_never_future nowNY (chars ("in 5 hours")) (-18000) rfl).2⟩

/-- Claim C3: when the entry carries a (truthy) machine-readable datetime
attribute that parses, the resolved timestamp is exactly the parsed value —
a round trip — regardless of any free-text date evidence also present. -/
theorem resolveDate_iso_roundtrip (nowTz nowUtc : PyDatetime) (e : RawEntry)
    (s : List Char) (d : PyDatetime) (ha : e.dtAttr = some s) (hs : s ≠ [])
    (hp : py_fromisoformat (replaceZ s) = some d) :
    resolveDate nowTz nowUtc e = d := by
  have hts : truthy (some s) = true := by
    simpa [truthy] using hs
  simp only [resolveDate, ha, Option.getD_some, hts, if_true, hp]

/-- Witness for C3 on a zoned ISO attribute, in the presence of competing
free-text evidence "2 hours ago". -/
theorem resolveDate_iso_roundtrip_witness :
    py_fromisoformat (replaceZ (chars ("0001-01-02T03:04:05Z"))) =
        some ⟨183845, some 0⟩ ∧
      resolveDate nowNY nowUTC0
          ⟨some (chars ("T3")), some (chars ("https://example.com/c3")), none,
            some (chars ("2 hours ago")), some (chars ("0001-01-02T03:04:05Z"))⟩ =
        ⟨183845, some 0⟩ :=
  ⟨by decide,
    resolveDate_iso_roundtrip nowNY nowUTC0 _ (chars ("0001-01-02T03:04:05Z"))
      ⟨183845, some 0⟩ rfl (by decide) (by decide)⟩

/-- Claim C2 counterexample: a valid ISO-8601 datetime attribute with no
UTC offset resolves to a naive datetime (offset `none`), even though both
reference times are timezone-aware — refuting the claim that resolution
always returns a timezone-aware instant. -/
theorem resolveDate_naive_counterexample :
    nowNY.offset.isSome = true ∧ nowUTC0.offset.isSome = true ∧
      (resolveDate nowNY nowUTC0
          ⟨some (chars ("T")), some (chars ("https://example.com/a")), none, none,
            some (chars ("0001-01-02T03:04:05"))⟩).offset = none := by
  refine ⟨rfl, rfl, ?_⟩
  decide

/-- Claim C2 (amended): date resolution is total — the model is a plain
function, matching the source where every failure path is caught — and,
when both reference times are timezone-aware, the result is timezone-aware
on every path except a successful parse of the machine-readable attribute,
in which case the parsed value itself (naive exactly when the attribute
carries no UTC offset) is returned. -/
theorem resolveDate_total_aware (nowTz nowUtc : PyDatetime) (e : RawEntry)
    (ht : nowTz.offset.isSome = true) (hu : nowUtc.offset.isSome = true) :
    (resolveDate nowTz nowUtc e).offset.isSome = true ∨
      (truthy e.dtAttr = true ∧
        py_fromisoformat (replaceZ (e.dtAttr.getD [])) =
          some (resolveDate nowTz nowUtc e)) := by
  by_cases ha : truthy e.dtAttr = true
  · cases hp : py_fromisoformat (replaceZ (e.dtAttr.getD [])) with
    | some d =>
      right
      refine ⟨ha, ?_⟩
      simp only [resolveDate, ha, if_true, hp]
    | none =>
      left
      simp only [resolveDate, ha, if_true, hp]
      by_cases hd : truthy e.dtText = true
      · rw [if_pos hd, parse_relative_date_offset]
        exact ht
      · rw [if_neg hd]
        exact hu
  · left
    simp only [resolveDate, ha, Bool.false_eq_true, if_false]
    by_cases hd : truthy e.dtText = true
    · rw [if_pos hd, parse_relative_date_offset]
      exact ht
    · rw [if_neg hd]
      exact hu

/-- Witness for the amended C2 on an entry with no date evidence at all. -/
theorem resolveDate_total_aware_witness :
    nowNY.offset.isSome = true ∧ nowUTC0.offset.isSome = true ∧
      ((resolveDate nowNY nowUTC0
          ⟨some (chars ("T")), some (chars ("https://example.com/w")), none, none,
            none⟩).offset.isSome = true ∨
        (truthy (RawEntry.dtAttr
            ⟨some (chars ("T")), some (chars ("https://example.com/w")), none, none,
              none⟩) = true ∧
          py_fromisoformat (replaceZ ((RawEntry.dtAttr
              ⟨some (chars ("T")), some (chars ("https://example.com/w")), none, none,
                none⟩).getD [])) =
            some (resolveDate nowNY nowUTC0
              ⟨some (chars ("T")), some (chars ("https://example.com/w")), none, none,
                none⟩))) :=
  ⟨rfl, rfl, resolveDate_total_aware nowNY nowUTC0 _ rfl rfl⟩

/-- Claim C1 counterexample: `parse_news` performs no deduplication.  Two
entries with identical (title, link) and different source labels both
appear in the output, in discovery order — refuting the claim that exactly
one (the first encountered) appears. -/
theorem parse_news_dup_counterexample :
    parse_news nowNY nowUTC0
        [⟨some (chars ("Dup title")), some (chars ("https://example.com/a")),
          some (chars ("Src A")), none, none⟩,
         ⟨some (chars ("Dup title")), some (chars ("https://example.com/a")),
          some (chars ("Src B")), none, none⟩] =
      [⟨chars ("Dup title"), chars ("https://example.com/a"), chars ("Src A"),
          nowUTC0, chars ("N/A")⟩,
       ⟨chars ("Dup title"), chars ("https://example.com/a"), chars ("Src B"),
          nowUTC0, chars ("N/A")⟩] := by
  decide

/-- Claim C1 (amended): the pipeline performs no deduplication at all — the
output is a permutation (reordering only, by the sort) of the items built
from every filter-passing entry, so entries with identical (title, link)
all contribute one output item each and no fields are merged.  The
hypothesis restates the all-dates-aware condition under which the model's
sort corresponds to CPython's (see C5). -/
theorem parse_news_no_dedup (nowTz nowUtc : PyDatetime) (l : List RawEntry)
    (_h : (l.all fun e => ((resolveDate nowTz nowUtc e).offset).isSome) = true) :
    (parse_news nowTz nowUtc l).Perm (l.filterMap (mkItem nowTz nowUtc)) :=
  sortNewsDesc_perm _

/-- Witness for the amended C1 on a one-entry batch. -/
theorem parse_news_no_dedup_witness :
    (([⟨some (chars ("W")), some (chars ("https://example.com/w")), none, none,
          none⟩] : List RawEntry).all
        fun e => ((resolveDate nowNY nowUTC0 e).offset).isSome) = true ∧
      (parse_news nowNY nowUTC0
          [⟨some (chars ("W")), some (chars ("https://example.com/w")), none, none,
            none⟩]).Perm
        (([⟨some (chars ("W")), some (chars ("https://example.com/w")), none, none,
            none⟩] : List RawEntry).filterMap (mkItem nowNY nowUTC0)) :=
  ⟨by decide, parse_news_no_dedup nowNY nowUTC0 _ (by decide)⟩

/-- Claim C6 counterexample: an entry whose title element exists but holds
empty text yields an article with an empty title in the output (the filter
only rejects the placeholder "N/A"), and an absolute link on the
aggregator's own host with the `http` scheme spelling passes the filter
(which checks the literal prefix `https://news.google.com/`, not the
host) — refuting the non-empty-title and self-referential-host parts of
the claim. -/
theorem parse_news_filter_counterexample :
    parse_news nowNY nowUTC0
        [⟨some [], some (chars ("https://example.com/e")), some (chars ("S")),
          none, none⟩,
         ⟨some (chars ("T")), some (chars ("http://news.google.com/foo")),
          some (chars ("S2")), none, none⟩] =
      [⟨[], chars ("https://example.com/e"), chars ("S"), nowUTC0, chars ("N/A")⟩,
       ⟨chars ("T"), chars ("http://news.google.com/foo"), chars ("S2"), nowUTC0,
          chars ("N/A")⟩] := by
  decide

/-- Claim C6 (amended): every article in the output satisfies exactly the
source's filter — title different from the placeholder "N/A" (but possibly
empty), link different from the placeholder "#", link not starting with the
literal prefix "https://news.google.com/" (links on the aggregator's host
under another scheme spelling may remain), and source different from
"Google News"; a resolved timestamp is always present by construction. -/
theorem parse_news_output_filter (nowTz nowUtc : PyDatetime) (l : List RawEntry)
    (it : NewsItem) (h : it ∈ parse_news nowTz nowUtc l) :
    it.title ≠ chars ("N/A") ∧ it.link ≠ chars ("#") ∧
      BASE_URL.isPrefixOf it.link = false ∧ it.source ≠ chars ("Google News") := by
  rw [parse_news] at h
  have h2 : it ∈ l.filterMap (mkItem nowTz nowUtc) := (sortNewsDesc_perm _).mem_iff.mp h
  rcases List.mem_filterMap.mp h2 with ⟨e, _hel, hmk⟩
  simp only [mkItem] at hmk
  split at hmk
  · rename_i hcond
    rcases Option.some.injEq .. ▸ hmk with rfl
    exact hcond
  · exact absurd hmk (by simp)

/-- Witness for the amended C6 on a one-entry batch. -/
theorem parse_news_output_filter_witness :
    (⟨chars ("W"), chars ("https://example.com/w"), chars ("N/A"), nowUTC0,
        chars ("N/A")⟩ : NewsItem) ∈
        parse_news nowNY nowUTC0
          [⟨some (chars ("W")), some (chars ("https://example.com/w")), none, none,
            none⟩] ∧
      (chars ("W") ≠ chars ("N/A") ∧ chars ("https://example.com/w") ≠ chars ("#") ∧
        BASE_URL.isPrefixOf (chars ("https://example.com/w")) = false ∧
        chars ("N/A") ≠ chars ("Google News")) :=
  ⟨by decide,
    parse_news_output_filter nowNY nowUTC0
      [⟨some (chars ("W")), some (chars ("https://example.com/w")), none, none,
        none⟩]
      ⟨chars ("W"), chars ("https://example.com/w"), chars ("N/A"), nowUTC0,
        chars ("N/A")⟩
      (by decide)⟩

theorem map_pyToLower_digits {ds : List Char} (h : ∀ c ∈ ds, pyIsDigit c = true) :
    ds.map pyToLower = ds := by
  induction ds with
  | nil => rfl
  | cons a l ih =>
    simp [pyToLower_digit (h a (by simp)), ih (fun b hb => h b (by simp [hb]))]

theorem pyIn_yesterday_false {ds : List Char} (h : ∀ c ∈ ds, pyIsDigit c = true) :
    pyIn (chars ("yesterday")) (ds ++ chars (" hours ago")) = false := by
  rcases Bool.eq_false_or_eq_true (pyIn (chars ("yesterday")) (ds ++ chars (" hours ago")))
    with ht | hf
  · exfalso
    have hsub := ((pyIn_iff _ _).mp ht).subset
    have hy : ('y' : Char) ∈ ds ++ chars (" hours ago") := hsub (by decide)
    rcases List.mem_append.mp hy with h1 | h2
    · have hd := h 'y' h1
      exact absurd hd (by decide)
    · exact absurd h2 (by decide)
  · exact hf

theorem pyIn_hour_append (ds : List Char) :
    pyIn (chars ("hour")) (ds ++ chars (" hours ago")) = true := by
  have hconc : ([' '] ++ (chars ("hour") ++ chars ("s ago")) : List Char) =
      chars (" hours ago") := by decide
  refine (pyIn_iff _ _).mpr ⟨ds ++ [' '], chars ("s ago"), ?_⟩
  simp only [List.append_assoc]
  rw [hconc]

theorem matchUnitAt_hours {ds : List Char} (hne : ds ≠ [])
    (h : ∀ c ∈ ds, pyIsDigit c = true) :
    matchUnitAt (chars ("hour")) (ds ++ chars (" hours ago")) = some ds := by
  have h1 : (ds ++ chars (" hours ago")).takeWhile pyIsDigit = ds := by
    rw [takeWhile_append_all ds _ h]
    have ht : (chars (" hours ago")).takeWhile pyIsDigit = [] := by decide
    rw [ht, List.append_nil]
  have h2 : (ds ++ chars (" hours ago")).dropWhile pyIsDigit = chars (" hours ago") := by
    rw [dropWhile_append_all ds _ h]
    decide
  have hie : ds.isEmpty = false := by
    cases ds with
    | nil => exact absurd rfl hne
    | cons a l => rfl
  have h3 : ((chars (" hours ago")).takeWhile pyIsSpace).isEmpty = false := by decide
  have h4 : (chars ("hour")).isPrefixOf ((chars (" hours ago")).dropWhile pyIsSpace) = true := by
    decide
  simp only [matchUnitAt, h1, h2, hie, h3, h4, Bool.false_eq_true, if_false, if_true]

theorem searchUnit_hours {ds : List Char} (hne : ds ≠ [])
    (h : ∀ c ∈ ds, pyIsDigit c = true) :
    searchUnit (chars ("hour")) (ds ++ chars (" hours ago")) = some ds := by
  cases ds with
  | nil => exact absurd rfl hne
  | cons c cr =>
    have hm := matchUnitAt_hours hne h
    rw [List.cons_append] at hm ⊢
    simp only [searchUnit, hm]

/-- Claim C4: for an entry whose only date evidence is the free-text phrase
"N hours ago" (digit string `ds` denoting N), the resolved timestamp is
exactly the reference now in the configured timezone minus N hours — in
particular within one unit of rounding of it. -/
theorem resolveDate_hours_ago (nowTz nowUtc : PyDatetime) (e : RawEntry)
    (ds : List Char) (hne : ds ≠ []) (hdig : ∀ c ∈ ds, pyIsDigit c = true)
    (hattr : truthy e.dtAttr = false)
    (htext : e.dtText = some (ds ++ chars (" hours ago"))) :
    resolveDate nowTz nowUtc e = pySubSeconds nowTz (3600 * (digitsToNat ds : Int)) := by
  have hnil : (ds ++ chars (" hours ago")) ≠ [] := by
    intro hnil
    rcases List.append_eq_nil.mp hnil with ⟨h1, _⟩
    exact hne h1
  have htt : truthy (some (ds ++ chars (" hours ago"))) = true := by
    simpa [truthy] using hnil
  have hlow : pyLower (ds ++ chars (" hours ago")) = ds ++ chars (" hours ago") := by
    unfold pyLower
    rw [List.map_append, map_pyToLower_digits hdig]
    exact congrArg (fun t => ds ++ t) (by decide)
  simp only [resolveDate, hattr, Bool.false_eq_true, if_false, htext, Option.getD_some,
    htt, if_true]
  simp only [parse_relative_date, hlow, pyIn_yesterday_false hdig, Bool.false_eq_true,
    if_false, pyIn_hour_append, if_true, searchUnit_hours hne hdig]

/-- Witness for C4 on the phrase "2 hours ago". -/
theorem resolveDate_hours_ago_witness :
    resolveDate nowNY nowUTC0
        ⟨some (chars ("T")), some (chars ("https://example.com/h")), none,
          some (chars ("2 hours ago")), none⟩ =
      pySubSeconds nowNY (3600 * (digitsToNat (chars ("2")) : Int)) :=
  resolveDate_hours_ago nowNY nowUTC0 _ (chars ("2")) (by decide) (by decide) rfl
    (by decide)
